import Mathlib

/-!
Shallow embedding of the DevClaw workflow/scheduling subsystem.

The definitions below translate, function by function, the TypeScript
sources of the repository:

* `lib/workflow.ts` — declarative workflow graph and its pure derivations
  (`getQueueLabels`, `getActiveLabel`, `getCompletionRule`,
  `getNextStateDescription`, `getCompletionEmoji`);
* `lib/projects.ts` — the project state store (`WorkerState`,
  `updateWorker`, `activateWorker`, `deactivateWorker`);
* `lib/services/pipeline.ts` — `executeCompletion`;
* `lib/services/heartbeat.ts` — the periodic sweep (`tick`);
* `lib/tools/session-health.ts` — the session-health reconciler.

JavaScript objects with string keys preserve insertion order, so
`Record<string, T>` values are embedded as association lists
`List (String × T)` in declaration order; `Object.values` is
`List.map Prod.snd`, bracket lookup is `List.lookup`.  `Array.sort`
with a comparator is a stable sort and is embedded as a stable
insertion sort (`jsSort`), proved equal to `List.mergeSort`.
Asynchronous functions that mutate external state are embedded as pure
state transformers returning `Except` together with an explicit trace
of the side effects they perform, in program order.
-/

namespace DevClaw

/-! ### Association-list helpers (JS object semantics) -/

/-- Replace the value stored at `k`, keeping its position, or append the
binding when the key is absent — JS `obj[k] = v` on a string-keyed object. -/
def setKey (k : String) (v : α) : List (String × α) → List (String × α)
  | [] => [(k, v)]
  | (k', v') :: rest =>
      if k' = k then (k, v) :: rest else (k', v') :: setKey k v rest

/-- Whether the object has a binding for `k` — JS `k in obj`. -/
def hasKey (k : String) (l : List (String × α)) : Bool :=
  (List.lookup k l).isSome

/-! ### Workflow engine (`lib/workflow.ts`) -/

/-- The `StateType` of `workflow.ts`: `"queue" | "active" | "hold" | "terminal"`. -/
inductive StateType where
  | queue
  | active
  | hold
  | terminal
deriving DecidableEq, BEq, Repr

/-- The `TransitionTarget` of `workflow.ts`: a bare target key or an object
`{ target, actions? }`. -/
inductive TransitionTarget where
  | simple (target : String)
  | withActions (target : String) (actions : Option (List String))
deriving DecidableEq, BEq, Repr

/-- The `StateConfig` of `workflow.ts`. -/
structure StateConfig where
  type : StateType
  role : Option String := none
  label : String
  color : String := ""
  priority : Option Int := none
  on_ : Option (List (String × TransitionTarget)) := none
deriving DecidableEq, BEq, Repr

/-- The `WorkflowConfig` of `workflow.ts`: initial state id plus the state map
in declaration order. -/
structure WorkflowConfig where
  initial : String
  states : List (String × StateConfig)
deriving DecidableEq, Repr

/-- The `CompletionRule` of `workflow.ts`.  The optional boolean action flags
(`actions?.includes(...)` can be `undefined`) are embedded by their
truthiness, which is how every call site reads them. -/
structure CompletionRule where
  from_ : String
  to_ : String
  gitPull : Bool := false
  detectPr : Bool := false
  closeIssue : Bool := false
  reopenIssue : Bool := false
deriving DecidableEq, Repr

/-- The `DEFAULT_WORKFLOW` of `workflow.ts`, states in declaration order. -/
def DEFAULT_WORKFLOW : WorkflowConfig :=
  { initial := "planning"
    states := [
      ("planning", { type := .hold, label := "Planning", color := "#95a5a6",
                     on_ := some [("APPROVE", .simple "todo")] }),
      ("todo", { type := .queue, role := some "developer", label := "To Do",
                 color := "#428bca", priority := some 1,
                 on_ := some [("PICKUP", .simple "doing")] }),
      ("doing", { type := .active, role := some "developer", label := "Doing",
                  color := "#f0ad4e",
                  on_ := some [
                    ("COMPLETE", .withActions "toTest" (some ["gitPull", "detectPr"])),
                    ("BLOCKED", .simple "refining")] }),
      ("toTest", { type := .queue, role := some "tester", label := "To Test",
                   color := "#5bc0de", priority := some 2,
                   on_ := some [("PICKUP", .simple "testing")] }),
      ("testing", { type := .active, role := some "tester", label := "Testing",
                    color := "#9b59b6",
                    on_ := some [
                      ("PASS", .withActions "done" (some ["closeIssue"])),
                      ("FAIL", .withActions "toImprove" (some ["reopenIssue"])),
                      ("REFINE", .simple "refining"),
                      ("BLOCKED", .simple "refining")] }),
      ("toImprove", { type := .queue, role := some "developer", label := "To Improve",
                      color := "#d9534f", priority := some 3,
                      on_ := some [("PICKUP", .simple "doing")] }),
      ("refining", { type := .hold, label := "Refining", color := "#f39c12",
                     on_ := some [("APPROVE", .simple "todo")] }),
      ("done", { type := .terminal, label := "Done", color := "#5cb85c" }),
      ("toDesign", { type := .queue, role := some "architect", label := "To Design",
                     color := "#0075ca", priority := some 1,
                     on_ := some [("PICKUP", .simple "designing")] }),
      ("designing", { type := .active, role := some "architect", label := "Designing",
                      color := "#d4c5f9",
                      on_ := some [
                        ("COMPLETE", .simple "planning"),
                        ("BLOCKED", .simple "refining")] })
    ] }

/-- The value list `Object.values(workflow.states)`. -/
def stateValues (w : WorkflowConfig) : List StateConfig :=
  w.states.map Prod.snd

/-- The sort key of `getQueueLabels`: `s.priority ?? 0`. -/
def prioOf (s : StateConfig) : Int :=
  s.priority.getD 0

/-- The filter of `getQueueLabels`: `s.type === "queue" && s.role === role`. -/
def isQueueFor (role : String) (s : StateConfig) : Bool :=
  s.type == .queue && s.role == some role

/-- The comparator of `getQueueLabels`,
`(a, b) => (b.priority ?? 0) - (a.priority ?? 0)`, read as the total
preorder it sorts by: `a` may precede `b` iff the comparator is `≤ 0`. -/
def prioDescLE (a b : StateConfig) : Bool :=
  prioOf b ≤ prioOf a

/-- Stable insertion into a sorted list: the JS stable sort places an
earlier element before every later element it ties with. -/
def jsInsert (le : α → α → Bool) (a : α) : List α → List α
  | [] => [a]
  | b :: l => if le a b then a :: b :: l else b :: jsInsert le a l

/-- The `Array.prototype.sort` with a comparator: a stable sort by the
comparator's total preorder (ECMAScript 2019 requires stability). -/
def jsSort (le : α → α → Bool) : List α → List α
  | [] => []
  | a :: l => jsInsert le a (jsSort le l)

/-- The `getQueueLabels` of `workflow.ts`: queue states of the role, sorted by
descending priority (stably), projected to labels. -/
def getQueueLabels (w : WorkflowConfig) (role : String) : List String :=
  (jsSort prioDescLE ((stateValues w).filter (isQueueFor role))).map (·.label)

/-- The filter of `getActiveLabel`: `s.type === "active" && s.role === role`. -/
def isActiveFor (role : String) (s : StateConfig) : Bool :=
  s.type == .active && s.role == some role

/-- The `getActiveLabel` of `workflow.ts`: `find` the first active state for the
role, throwing when there is none. -/
def getActiveLabel (w : WorkflowConfig) (role : String) : Except String String :=
  match (stateValues w).find? (isActiveFor role) with
  | some s => .ok s.label
  | none => .error ("No active state for role \"" ++ role ++ "\"")

/-- The `findStateByLabel` of `workflow.ts`. -/
def findStateByLabel (w : WorkflowConfig) (label : String) : Option StateConfig :=
  (stateValues w).find? (fun s => s.label == label)

/-- The `findStateKeyByLabel` of `workflow.ts`. -/
def findStateKeyByLabel (w : WorkflowConfig) (label : String) : Option String :=
  (w.states.find? (fun p => p.2.label == label)).map Prod.fst

/-- The effect of `String.prototype.toUpperCase()` on the ASCII strings this system uses
(role ids, completion results); spelled on the character list so the
kernel can evaluate it, which `String.toUpper` does not allow. -/
def asciiToUpper (s : String) : String :=
  String.mk (s.data.map fun c => if c.isLower then Char.ofNat (c.toNat - 32) else c)

/-- The `resultToEvent` of `workflow.ts`: `"done" → "COMPLETE"`, otherwise the
result uppercased. -/
def resultToEvent (result : String) : String :=
  if result = "done" then "COMPLETE" else asciiToUpper result

/-- The target key of a transition:
`typeof transition === "string" ? transition : transition.target`. -/
def transitionTargetKey : TransitionTarget → String
  | .simple t => t
  | .withActions t _ => t

/-- The actions of a transition:
`typeof transition === "object" ? transition.actions : undefined`. -/
def transitionActions : TransitionTarget → Option (List String)
  | .simple _ => none
  | .withActions _ a => a

/-- The `getCompletionRule` of `workflow.ts`: derive the `(from, to, actions)`
rule for a `(role, result)` pair from the active state's transition table. -/
def getCompletionRule (w : WorkflowConfig) (role result : String) :
    Option CompletionRule :=
  let event := resultToEvent result
  match getActiveLabel w role with
  | .error _ => none
  | .ok activeLabel =>
    match findStateKeyByLabel w activeLabel with
    | none => none
    | some activeKey =>
      -- `workflow.states[activeKey]`; the key was found in the map, and JS
      -- object keys are unique, so the lookup returns that same entry.
      match List.lookup activeKey w.states with
      | none => none
      | some activeState =>
        match activeState.on_ with
        | none => none
        | some transitions =>
          match List.lookup event transitions with
          | none => none
          | some transition =>
            let targetKey := transitionTargetKey transition
            let actions := transitionActions transition
            match List.lookup targetKey w.states with
            | none => none
            | some targetState =>
              some {
                from_ := activeLabel
                to_ := targetState.label
                gitPull := (actions.getD []).contains "gitPull"
                detectPr := (actions.getD []).contains "detectPr"
                closeIssue := (actions.getD []).contains "closeIssue"
                reopenIssue := (actions.getD []).contains "reopenIssue" }

/-- The `getNextStateDescription` of `workflow.ts`. -/
def getNextStateDescription (w : WorkflowConfig) (role result : String) : String :=
  match getCompletionRule w role result with
  | none => ""
  | some rule =>
    match findStateByLabel w rule.to_ with
    | none => ""
    | some targetState =>
      if targetState.type = .terminal then "Done!"
      else if targetState.type = .hold then "awaiting human decision"
      else if targetState.type = .queue ∧ targetState.role.isSome then
        asciiToUpper (targetState.role.getD "") ++ " queue"
      else rule.to_

/-- The `RESULT_EMOJI` lookup of `getCompletionEmoji` in `workflow.ts`. -/
def getCompletionEmoji (_role result : String) : String :=
  (List.lookup result [
    ("done", "✅"), ("pass", "🎉"), ("fail", "❌"),
    ("refine", "🤔"), ("blocked", "🚫")]).getD "📋"

/-! ### Project state store (`lib/projects.ts`)

`updateWorker`, `activateWorker` and `deactivateWorker` are
read-modify-write operations on the persisted `projects.json` document:
each reads the document, mutates it in memory and writes it back whole.
They are embedded as transformers of the parsed document `ProjectsData`,
returning an `Except` (the functions throw on an unknown project) paired
with the list of file writes performed, in program order. -/

/-- The `WorkerState` of `projects.ts`.  `sessions: Record<string, string | null>`
is an insertion-ordered object, embedded as an association list. -/
structure WorkerState where
  active : Bool
  issueId : Option String
  startTime : Option String
  level : Option String
  sessions : List (String × Option String)
deriving DecidableEq, Repr

/-- A `Partial<WorkerState>`: a field is wrapped in one more `Option` layer
recording whether the update object carries the property at all (the outer
layer); spreading `{ ...worker, ...updates }` replaces exactly the carried
properties. -/
structure WorkerUpdate where
  active : Option Bool := none
  issueId : Option (Option String) := none
  startTime : Option (Option String) := none
  level : Option (Option String) := none
  sessions : Option (List (String × Option String)) := none
deriving DecidableEq, Repr

/-- The `Project` of `projects.ts`, restricted to the fields the store
operations and the schedulers read. -/
structure Project where
  name : String
  repo : String
  workers : List (String × WorkerState)
deriving DecidableEq, Repr

/-- The `ProjectsData` of `projects.ts`: the whole persisted document. -/
structure ProjectsData where
  projects : List (String × Project)
deriving DecidableEq, Repr

/-- The `emptyWorkerState` of `projects.ts`. -/
def emptyWorkerState (levels : List String) : WorkerState :=
  { active := false
    issueId := none
    startTime := none
    level := none
    sessions := levels.map (fun l => (l, none)) }

/-- The `getSessionForLevel` of `projects.ts`: `worker.sessions[level] ?? null`. -/
def getSessionForLevel (worker : WorkerState) (level : String) : Option String :=
  (List.lookup level worker.sessions).getD none

/-- The `getProject` of `projects.ts`: `data.projects[groupId]`. -/
def getProject (data : ProjectsData) (groupId : String) : Option Project :=
  List.lookup groupId data.projects

/-- The `getWorker` of `projects.ts`: `project.workers[role] ?? emptyWorkerState([])`. -/
def getWorker (project : Project) (role : String) : WorkerState :=
  (List.lookup role project.workers).getD (emptyWorkerState [])

/-- The spread `{ ...worker.sessions, ...updates.sessions }`: existing keys
keep their positions and take the new value when the update carries that
key; keys only in the update are appended in the update's order. -/
def mergeSessions (old nw : List (String × Option String)) :
    List (String × Option String) :=
  (old.map (fun p =>
      match List.lookup p.1 nw with
      | some v => (p.1, v)
      | none => p))
  ++ nw.filter (fun p => ¬ hasKey p.1 old)

/-- One file write of the store (`writeProjects` serialises the whole
document to a temp file and renames it over the canonical one). -/
inductive StoreEffect where
  | write (data : ProjectsData)
deriving DecidableEq, Repr

/-- The `updateWorker` of `projects.ts`, with its write trace: read the
document, throw if the project is unknown, merge `sessions` key-wise when
the update carries them, spread the update over the worker, write back. -/
def updateWorkerT (data : ProjectsData) (groupId role : String)
    (updates : WorkerUpdate) :
    Except String ProjectsData × List StoreEffect :=
  match List.lookup groupId data.projects with
  | none => (.error ("Project not found for groupId: " ++ groupId), [])
  | some project =>
    let worker := (List.lookup role project.workers).getD (emptyWorkerState [])
    let updates :=
      match updates.sessions with
      | some nw => { updates with sessions := some (mergeSessions worker.sessions nw) }
      | none => updates
    let worker' : WorkerState :=
      { active := updates.active.getD worker.active
        issueId := updates.issueId.getD worker.issueId
        startTime := updates.startTime.getD worker.startTime
        level := updates.level.getD worker.level
        sessions := updates.sessions.getD worker.sessions }
    let project' := { project with workers := setKey role worker' project.workers }
    let data' := { data with projects := setKey groupId project' data.projects }
    (.ok data', [.write data'])

/-- The result of `updateWorker` without its trace. -/
def updateWorker (data : ProjectsData) (groupId role : String)
    (updates : WorkerUpdate) : Except String ProjectsData :=
  (updateWorkerT data groupId role updates).1

/-- The parameter object of `activateWorker`. -/
structure ActivateParams where
  issueId : String
  level : String
  sessionKey : Option String := none
  startTime : Option String := none
deriving DecidableEq, Repr

/-- The `activateWorker` of `projects.ts`: marks the worker active and stores
the session key under `sessions[level]` when one is given. -/
def activateWorkerT (data : ProjectsData) (groupId role : String)
    (params : ActivateParams) :
    Except String ProjectsData × List StoreEffect :=
  let updates : WorkerUpdate :=
    { active := some true
      issueId := some (some params.issueId)
      level := some (some params.level) }
  let updates :=
    match params.sessionKey with
    | some key => { updates with sessions := some [(params.level, some key)] }
    | none => updates
  let updates :=
    match params.startTime with
    | some t => { updates with startTime := some (some t) }
    | none => updates
  updateWorkerT data groupId role updates

/-- The result of `activateWorker` without its trace. -/
def activateWorker (data : ProjectsData) (groupId role : String)
    (params : ActivateParams) : Except String ProjectsData :=
  (activateWorkerT data groupId role params).1

/-- The `deactivateWorker` of `projects.ts`: clears `active`, `issueId` and
`startTime`; the update carries no `sessions` and no `level`. -/
def deactivateWorkerT (data : ProjectsData) (groupId role : String) :
    Except String ProjectsData × List StoreEffect :=
  updateWorkerT data groupId role
    { active := some false
      issueId := some none
      startTime := some none }

/-- The result of `deactivateWorker` without its trace. -/
def deactivateWorker (data : ProjectsData) (groupId role : String) :
    Except String ProjectsData :=
  (deactivateWorkerT data groupId role).1

/-- The worker `deactivateWorker` writes back: `active`, `issueId` and
`startTime` cleared, `level` and `sessions` carried over. -/
def deactivatedWorker (w : WorkerState) : WorkerState :=
  { active := false, issueId := none, startTime := none,
    level := w.level, sessions := w.sessions }

/-- The worker stored for `(groupId, role)`, read back the way the tools do:
`getWorker(getProject(data, groupId), role)`. -/
def workerIn (data : ProjectsData) (groupId role : String) : WorkerState :=
  match getProject data groupId with
  | some project => getWorker project role
  | none => emptyWorkerState []

/-! ### Session-health reconciler (`lib/tools/session-health.ts`)

The tool reads the projects document and, per `(project, role)`, emits
findings for the four checks; `startTime` is stored as an ISO string and
compared through `new Date(..).getTime()`, embedded here directly as the
parsed epoch milliseconds. -/

/-- The worker shape this tool reads (`sessionId`, not the later
`sessions` map). -/
structure SHWorker where
  active : Bool
  sessionId : Option String
  issueId : Option String
  startMs : Option Int
deriving DecidableEq, Repr

/-- A project as the session-health tool reads it: the two fixed roles. -/
structure SHProject where
  name : String
  dev : SHWorker
  qa : SHWorker
deriving DecidableEq, Repr

/-- The `type` field of a finding. -/
inductive SHIssueType where
  | activeNoSession
  | zombieSession
  | staleWorker
  | inactiveWithIssue
deriving DecidableEq, BEq, Repr

/-- One finding; `labelRevert` records the `from → to` label revert the
zombie fix attempts on the tracker (only the zombie branch makes one). -/
structure SHIssue where
  itype : SHIssueType
  groupId : String
  role : String
  fixed : Bool := false
  labelRevert : Option (String × String) := none
deriving DecidableEq, Repr

/-- The four checks of `session_health` for one `(project, role)` worker,
in source order.  With `autoFix` the first, second and fourth findings are
marked fixed; the third (stale) is warning-only. -/
def checkSHWorker (groupId role : String) (worker : SHWorker)
    (activeSessions : List String) (autoFix : Bool) (nowMs : Int) :
    List SHIssue :=
  (if worker.active ∧ worker.sessionId = none then
    [{ itype := .activeNoSession, groupId, role, fixed := autoFix }]
  else [])
  ++ (match worker.sessionId with
      | some sid =>
        if worker.active ∧ activeSessions ≠ [] ∧ sid ∉ activeSessions then
          [{ itype := .zombieSession, groupId, role, fixed := autoFix,
             labelRevert :=
               if autoFix ∧ worker.issueId.isSome then
                 some (if role = "dev" then ("Doing", "To Do") else ("Testing", "To Test"))
               else none }]
        else []
      | none => [])
  ++ (match worker.startMs with
      | some startMs =>
        if worker.active ∧ nowMs - startMs > 2 * 3600000 then
          [{ itype := .staleWorker, groupId, role }]
        else []
      | none => [])
  ++ (if ¬ worker.active ∧ worker.issueId.isSome then
    [{ itype := .inactiveWithIssue, groupId, role, fixed := autoFix }]
  else [])

/-- The whole `session_health` scan: every project, roles `dev` then `qa`. -/
def sessionHealthIssues (projects : List (String × SHProject))
    (activeSessions : List String) (autoFix : Bool) (nowMs : Int) :
    List SHIssue :=
  projects.flatMap (fun p =>
    checkSHWorker p.1 "dev" p.2.dev activeSessions autoFix nowMs
    ++ checkSHWorker p.1 "qa" p.2.qa activeSessions autoFix nowMs)

/-! ### Heartbeat sweep (`lib/services/heartbeat.ts`, `tick`)

The sweep iterates the projects; per project it awaits the health pass for
both roles, checks the pickup budget (`break` on exhaustion), re-reads the
project (`continue` when gone), applies the sequential-project guard
(`continue`), and awaits the project tick.  The external passes
(`checkWorkerHealth`, `projectTick`) are oracles: the sweep only sees
their result or the error they throw, and nothing in the loop catches
errors — the embedding threads them as values. -/

/-- What `projectTick` returns, reduced to the counts the sweep reads. -/
structure TickOutcome where
  pickups : Nat
  skipped : Nat
deriving DecidableEq, Repr

/-- The behaviour of one project's external passes during the sweep. -/
structure ProjectPasses where
  healthDev : Except String Nat
  healthQa : Except String Nat
  freshExists : Bool := true
  projectActive : Bool := false
  tick : Except String TickOutcome
deriving Repr

/-- The sweep's accumulator, extended with the lists of projects whose
health pass and tick pass completed (for stating which projects were
served in a cycle). -/
structure SweepState where
  totalPickups : Int := 0
  totalHealthFixes : Nat := 0
  totalSkipped : Nat := 0
  activeProjects : Nat := 0
  healthPassed : List String := []
  tickPassed : List String := []
deriving DecidableEq, Repr

/-- The per-cycle sweep of `tick` in `heartbeat.ts`.  The result pairs the
state reached with the error that aborted the loop, if one was thrown
(the service wrapper catches and logs it outside the sweep). -/
def heartbeatSweep (maxPickups : Int) (projectExecution : String) :
    SweepState → List (String × ProjectPasses) → SweepState × Option String
  | st, [] => (st, none)
  | st, (gid, p) :: rest =>
    match p.healthDev with
    | .error e => (st, some e)
    | .ok fDev =>
      match p.healthQa with
      | .error e => (st, some e)
      | .ok fQa =>
        let st := { st with
          totalHealthFixes := st.totalHealthFixes + fDev + fQa
          healthPassed := st.healthPassed ++ [gid] }
        if maxPickups - st.totalPickups ≤ 0 then (st, none)
        else if ¬ p.freshExists then
          heartbeatSweep maxPickups projectExecution st rest
        else if projectExecution = "sequential" ∧ ¬ p.projectActive
            ∧ st.activeProjects ≥ 1 then
          heartbeatSweep maxPickups projectExecution
            { st with totalSkipped := st.totalSkipped + 1 } rest
        else
          match p.tick with
          | .error e => (st, some e)
          | .ok r =>
            heartbeatSweep maxPickups projectExecution
              { st with
                totalPickups := st.totalPickups + r.pickups
                totalSkipped := st.totalSkipped + r.skipped
                activeProjects :=
                  st.activeProjects + (if p.projectActive ∨ r.pickups > 0 then 1 else 0)
                tickPassed := st.tickPassed ++ [gid] }
              rest

/-! ### Completion pipeline (`lib/services/pipeline.ts`, `executeCompletion`)

The pipeline's collaborators live behind the provider interface.  The
world carries the store, the task's current tracker label, the issue url
and the merged-MR url the provider would report.  `provider.transitionLabel`
is not part of the repository's sources; per its contract (the tracker
capability verifies `from` itself and fails otherwise) it is modelled as
succeeding exactly when the task's current label is the rule's `from`.
Every effect the pipeline performs is recorded in program order. -/

/-- The tracker-and-store world `executeCompletion` acts on. -/
structure World where
  store : ProjectsData
  taskLabel : String
  issueUrl : String := ""
  mrUrl : Option String := none
deriving DecidableEq, Repr

/-- The side effects of `executeCompletion`, in program order. -/
inductive PipeEffect where
  | gitPull
  | detectPr (issueId : Nat)
  | getIssue (issueId : Nat)
  | notify
  | deactivate (groupId role : String)
  | labelTransition (issueId : Nat) (from_ to_ : String)
  | closeIssue (issueId : Nat)
  | reopenIssue (issueId : Nat)
deriving DecidableEq, Repr

/-- The `CompletionOutput` of `pipeline.ts`. -/
structure CompletionOutput where
  labelTransition : String
  announcement : String
  nextState : String
  prUrl : Option String
  issueUrl : String
  issueClosed : Bool
  issueReopened : Bool
deriving DecidableEq, Repr

/-- The `executeCompletion` of `pipeline.ts`: resolve the rule (throw when
absent), best-effort git pull and PR detection, fetch the issue, fire the
notification, deactivate the worker, transition the label (hard
precondition on the current label), close/reopen, build the output. -/
def executeCompletion (workflow : WorkflowConfig)
    (groupId role result : String) (issueId : Nat)
    (summary prUrl0 : Option String) (world : World) :
    World × List PipeEffect × Except String CompletionOutput :=
  match getCompletionRule workflow role result with
  | none => (world, [], .error ("No completion rule for " ++ role ++ ":" ++ result))
  | some rule =>
    let trGit : List PipeEffect := if rule.gitPull then [.gitPull] else []
    let detect := rule.detectPr ∧ prUrl0 = none
    let prUrl := if detect then world.mrUrl else prUrl0
    let trPr : List PipeEffect := if detect then [.detectPr issueId] else []
    let nextState := getNextStateDescription workflow role result
    let trPre := trGit ++ trPr ++ [PipeEffect.getIssue issueId, PipeEffect.notify]
    match deactivateWorker world.store groupId role with
    | .error e => (world, trPre, .error e)
    | .ok store1 =>
      let world1 := { world with store := store1 }
      let trDL := trPre ++ [PipeEffect.deactivate groupId role,
                            PipeEffect.labelTransition issueId rule.from_ rule.to_]
      if world1.taskLabel = rule.from_ then
        let world2 := { world1 with taskLabel := rule.to_ }
        let trClose : List PipeEffect :=
          (if rule.closeIssue then [.closeIssue issueId] else [])
          ++ (if rule.reopenIssue then [.reopenIssue issueId] else [])
        let emoji := getCompletionEmoji role result
        -- `key.replace(":", " ")`: the key `role:result` has one colon.
        let label := asciiToUpper ((role ++ ":" ++ result).replace ":" " ")
        let ann := emoji ++ " " ++ label ++ " #" ++ toString issueId
        let ann := match summary with
          | some s => ann ++ " — " ++ s
          | none => ann
        let ann := ann ++ "\n📋 Issue: " ++ world.issueUrl
        let ann := match prUrl with
          | some u => ann ++ "\n🔗 PR: " ++ u
          | none => ann
        let ann := ann ++ "\n" ++ nextState ++ "."
        (world2, trDL ++ trClose,
          .ok { labelTransition := rule.from_ ++ " → " ++ rule.to_
                announcement := ann
                nextState := nextState
                prUrl := prUrl
                issueUrl := world.issueUrl
                issueClosed := rule.closeIssue
                issueReopened := rule.reopenIssue })
      else
        (world1, trDL,
          .error ("Label transition failed: task has label \"" ++ world1.taskLabel
            ++ "\" but expected \"" ++ rule.from_ ++ "\""))

/-! ### Concrete fixtures used by witnesses and counterexamples -/

/-- A stored worker: active on issue 7, with one cached session. -/
def wEx : WorkerState :=
  { active := true
    issueId := some "7"
    startTime := some "2026-02-12T10:00:00Z"
    level := some "senior"
    sessions := [("a", some "x")] }

/-- A project whose developer worker is `wEx`. -/
def projEx : Project :=
  { name := "proj", repo := "r", workers := [("developer", wEx)] }

/-- A projects document with one project `g` whose developer is `wEx`. -/
def dataEx : ProjectsData :=
  { projects := [("g", projEx)] }

/-- An empty projects document. -/
def dataEmpty : ProjectsData :=
  { projects := [] }

/-- A world where the task currently carries the label `To Test` (not the
developer completion rule's `from` label `Doing`). -/
def worldEx : World :=
  { store := dataEx, taskLabel := "To Test", issueUrl := "https://x/7" }

/-- A world where the task carries `Doing`, the developer rule's `from`. -/
def worldExOk : World :=
  { store := dataEx, taskLabel := "Doing", issueUrl := "https://x/7" }

/-- The `doing` state of `DEFAULT_WORKFLOW`, spelled out. -/
def doingState : StateConfig :=
  { type := .active, role := some "developer", label := "Doing", color := "#f0ad4e",
    on_ := some [
      ("COMPLETE", .withActions "toTest" (some ["gitPull", "detectPr"])),
      ("BLOCKED", .simple "refining")] }

/-- A workflow whose `dev` role has two active states — a malformed graph
per the config invariant. -/
def TWO_ACTIVE_WORKFLOW : WorkflowConfig :=
  { initial := "a1"
    states := [
      ("a1", { type := .active, role := some "dev", label := "A1" }),
      ("a2", { type := .active, role := some "dev", label := "A2" })] }

/-- A project whose health pass (dev role) throws. -/
def pErrC4 : ProjectPasses :=
  { healthDev := .error "boom", healthQa := .ok 0, tick := .ok ⟨0, 0⟩ }

/-- A project whose passes all succeed, with one pickup available. -/
def pOkC4 : ProjectPasses :=
  { healthDev := .ok 0, healthQa := .ok 0, tick := .ok ⟨1, 0⟩ }

/-- A project whose health passes succeed but whose tick pass throws. -/
def pTickErrC4 : ProjectPasses :=
  { healthDev := .ok 0, healthQa := .ok 0, tick := .error "tickboom" }

/-! ### Lemmas about the association-list store -/

theorem lookup_setKey_self (k : String) (v : α) (l : List (String × α)) :
    List.lookup k (setKey k v l) = some v := by
  induction l with
  | nil => simp [setKey]
  | cons p rest ih =>
    obtain ⟨k', v'⟩ := p
    by_cases h : k' = k
    · simp [setKey, h]
    · have hbeq : (k == k') = false := by simp [Ne.symm h]
      simp [setKey, h, List.lookup, hbeq, ih]

/-- The session spread keeps a binding the update carries: looking up the
updated key finds the update's value. -/
theorem lookup_mergeSessions_single (old : List (String × Option String))
    (L : String) (v : Option String) :
    List.lookup L (mergeSessions old [(L, v)]) = some v := by
  induction old with
  | nil => simp [mergeSessions, List.lookup]
  | cons p rest ih =>
    obtain ⟨k, w⟩ := p
    by_cases h : k = L
    · subst h
      simp [mergeSessions, List.lookup]
    · have hkL : (k == L) = false := by simp [h]
      have hbeq : (L == k) = false := by simp [Ne.symm h]
      have hhk : hasKey L ((k, w) :: rest) = hasKey L rest := by
        simp [hasKey, List.lookup, hbeq]
      simp only [mergeSessions, List.map_cons, List.cons_append, List.lookup, hkL, hbeq,
        List.filter, List.append_eq, hhk] at ih ⊢
      exact ih

/-- The `updateWorkerT` on a present project: the read-modify-write succeeds and
performs exactly one document write. -/
theorem updateWorkerT_found (data : ProjectsData) (g role : String)
    (u : WorkerUpdate) (proj : Project)
    (h : List.lookup g data.projects = some proj) :
    updateWorkerT data g role u =
      (let w := (List.lookup role proj.workers).getD (emptyWorkerState [])
       let u' := match u.sessions with
         | some nw => { u with sessions := some (mergeSessions w.sessions nw) }
         | none => u
       let w' : WorkerState :=
         { active := u'.active.getD w.active
           issueId := u'.issueId.getD w.issueId
           startTime := u'.startTime.getD w.startTime
           level := u'.level.getD w.level
           sessions := u'.sessions.getD w.sessions }
       let d' := { data with
         projects := setKey g { proj with workers := setKey role w' proj.workers } data.projects }
       (Except.ok d', [StoreEffect.write d'])) := by
  simp only [updateWorkerT, h]

/-- Reading back the worker right after a successful `updateWorkerT`-shaped
write finds exactly the written worker. -/
theorem workerIn_setKey (data : ProjectsData) (g role : String)
    (proj : Project) (w' : WorkerState) :
    workerIn
      { data with
        projects := setKey g { proj with workers := setKey role w' proj.workers } data.projects }
      g role = w' := by
  simp [workerIn, getProject, lookup_setKey_self, getWorker]

/-! ### Claim theorems: the project state store -/

/-- C7: for every worker state, `deactivate()` sets `active=false`,
`issueId=null` and `startTime=null`, and leaves the `sessions` map and the
`level` field exactly as they were. -/
theorem deactivateWorker_preserves_sessions_level (data : ProjectsData)
    (groupId role : String) (proj : Project)
    (h : getProject data groupId = some proj) :
    ∃ data', deactivateWorker data groupId role = Except.ok data' ∧
      workerIn data' groupId role =
        { active := false
          issueId := none
          startTime := none
          level := (getWorker proj role).level
          sessions := (getWorker proj role).sessions } := by
  have h' : List.lookup groupId data.projects = some proj := h
  refine ⟨_, ?_, workerIn_setKey data groupId role proj _⟩
  simp only [deactivateWorker, deactivateWorkerT,
    updateWorkerT_found data groupId role _ proj h',
    Option.getD_some, Option.getD_none, getWorker]

/-- Witness for C7: on the concrete store `dataEx` (developer worker with
`sessions = {a: "x"}`, `level = "senior"`), deactivation keeps both. -/
theorem deactivateWorker_preserves_sessions_level_witness :
    getProject dataEx "g" = some projEx ∧
    ∃ data', deactivateWorker dataEx "g" "developer" = Except.ok data' ∧
      workerIn data' "g" "developer" =
        { active := false
          issueId := none
          startTime := none
          level := (getWorker projEx "developer").level
          sessions := (getWorker projEx "developer").sessions } :=
  ⟨rfl, deactivateWorker_preserves_sessions_level dataEx "g" "developer" projEx rfl⟩

/-- C10: `updateWorker` (and `activateWorker` and `deactivateWorker`, which
delegate to it) called with a groupId absent from the projects document
throws `Project not found` before any write occurs: the write trace is
empty, so the persisted file is unchanged. -/
theorem updateWorker_unknown_project_no_write (data : ProjectsData)
    (groupId role : String) (u : WorkerUpdate) (params : ActivateParams)
    (h : getProject data groupId = none) :
    updateWorkerT data groupId role u =
      (Except.error ("Project not found for groupId: " ++ groupId), []) ∧
    activateWorkerT data groupId role params =
      (Except.error ("Project not found for groupId: " ++ groupId), []) ∧
    deactivateWorkerT data groupId role =
      (Except.error ("Project not found for groupId: " ++ groupId), []) := by
  have h' : List.lookup groupId data.projects = none := h
  refine ⟨?_, ?_, ?_⟩ <;>
    simp [updateWorkerT, activateWorkerT, deactivateWorkerT, h']

/-- Witness for C10: the empty document rejects every store operation on
project `g` with no write performed. -/
theorem updateWorker_unknown_project_no_write_witness :
    getProject dataEmpty "g" = none ∧
    (updateWorkerT dataEmpty "g" "developer" {} =
        (Except.error ("Project not found for groupId: " ++ "g"), []) ∧
      activateWorkerT dataEmpty "g" "developer" { issueId := "1", level := "junior" } =
        (Except.error ("Project not found for groupId: " ++ "g"), []) ∧
      deactivateWorkerT dataEmpty "g" "developer" =
        (Except.error ("Project not found for groupId: " ++ "g"), [])) :=
  ⟨rfl, updateWorker_unknown_project_no_write dataEmpty "g" "developer" {}
    { issueId := "1", level := "junior" } rfl⟩

/-- C8: the session-reuse round trip.  `activate(level=L, sessionRef=S)`,
then `deactivate()`, then `activate(level=L)` with no session ref, yields a
worker whose `sessions[L]` equals `S`. -/
theorem session_reuse_roundtrip (data : ProjectsData)
    (g role L S iid iid2 : String) (proj : Project)
    (h : getProject data g = some proj) :
    (activateWorker data g role { issueId := iid, level := L, sessionKey := some S } >>=
      fun d1 => deactivateWorker d1 g role >>=
        fun d2 => activateWorker d2 g role { issueId := iid2, level := L } >>=
          fun d3 => pure (getSessionForLevel (workerIn d3 g role) L)) =
      Except.ok (some S) := by
  have h' : List.lookup g data.projects = some proj := h
  simp only [activateWorker, activateWorkerT, deactivateWorker, deactivateWorkerT,
    updateWorkerT, h', lookup_setKey_self, Option.getD_some, bind, Except.bind,
    workerIn, getProject, getWorker, pure, Except.pure, getSessionForLevel]
  simp [lookup_mergeSessions_single]

/-- Witness for C8: the round trip on the concrete store `dataEx`, level
`junior`, session ref `S1`. -/
theorem session_reuse_roundtrip_witness :
    getProject dataEx "g" = some projEx ∧
    (activateWorker dataEx "g" "developer"
        { issueId := "8", level := "junior", sessionKey := some "S1" } >>=
      fun d1 => deactivateWorker d1 "g" "developer" >>=
        fun d2 => activateWorker d2 "g" "developer" { issueId := "9", level := "junior" } >>=
          fun d3 => pure (getSessionForLevel (workerIn d3 "g" "developer") "junior")) =
      Except.ok (some "S1") :=
  ⟨rfl, session_reuse_roundtrip dataEx "g" "developer" "junior" "S1" "8" "9" projEx rfl⟩

/-! ### Claim theorems: health reconciler and heartbeat -/

/-- With no live-session list, one worker's checks emit no zombie finding
and no label-revert attempt, whatever the worker state. -/
theorem checkSHWorker_empty_no_zombie (g role : String) (w : SHWorker)
    (autoFix : Bool) (nowMs : Int) :
    (checkSHWorker g role w [] autoFix nowMs).filter
        (fun i => i.itype == SHIssueType.zombieSession) = []
    ∧ (checkSHWorker g role w [] autoFix nowMs).filter
        (fun i => i.labelRevert.isSome) = [] := by
  obtain ⟨act, sid, iid, stm⟩ := w
  cases sid <;> cases stm <;>
    simp only [checkSHWorker, List.filter_append] <;>
    constructor <;>
    split_ifs <;>
    simp_all <;>
    decide

/-- C9: running the session-health reconciler with an empty live-session
list produces zero zombie findings and performs zero zombie label reverts,
regardless of how many workers are active with session references. -/
theorem sessionHealth_empty_sessions_no_zombies
    (projects : List (String × SHProject)) (autoFix : Bool) (nowMs : Int) :
    (sessionHealthIssues projects [] autoFix nowMs).filter
        (fun i => i.itype == SHIssueType.zombieSession) = []
    ∧ (sessionHealthIssues projects [] autoFix nowMs).filter
        (fun i => i.labelRevert.isSome) = [] := by
  induction projects with
  | nil => simp [sessionHealthIssues]
  | cons p rest ih =>
    obtain ⟨ihz, ihr⟩ := ih
    obtain ⟨hdz, hdr⟩ := checkSHWorker_empty_no_zombie p.1 "dev" p.2.dev autoFix nowMs
    obtain ⟨hqz, hqr⟩ := checkSHWorker_empty_no_zombie p.1 "qa" p.2.qa autoFix nowMs
    constructor <;>
      simp [sessionHealthIssues, List.filter_append, hdz, hdr, hqz, hqr, ihz, ihr] <;>
      simp [sessionHealthIssues] at ihz ihr <;> assumption

/-- C4 counterexample: projects `g1` (health pass throws `boom`) and `g2`
(all passes fine); the sweep aborts on `g1`, so `g2` receives neither its
health pass nor its tick pass that cycle — the claim's "every remaining
project is still given its health and tick pass" fails. -/
theorem heartbeatSweep_error_aborts_cex :
    (heartbeatSweep 4 "parallel" {} [("g1", pErrC4), ("g2", pOkC4)]).2 = some "boom"
    ∧ (heartbeatSweep 4 "parallel" {} [("g1", pErrC4), ("g2", pOkC4)]).1.healthPassed = []
    ∧ (heartbeatSweep 4 "parallel" {} [("g1", pErrC4), ("g2", pOkC4)]).1.tickPassed = [] := by
  refine ⟨?_, ?_, ?_⟩ <;> rfl

/-- C4 amended: an error thrown in one project's health pass (either role)
or in its tick pass is not caught inside the sweep: the sweep stops at
that project with the error (logged only by the service wrapper around the
whole tick), having recorded no tick pass for it and nothing for any later
project, so the remaining projects receive neither their health pass nor
their tick pass in that cycle.  The tick-pass case carries the loop's
reachability conditions (budget not exhausted, fresh re-read found the
project, sequential guard not taken), exactly when the tick is attempted. -/
theorem heartbeatSweep_pass_error_aborts (maxPickups : Int)
    (projectExecution : String) (st : SweepState) (gid : String)
    (p : ProjectPasses) (rest : List (String × ProjectPasses)) (e : String)
    (h : p.healthDev = Except.error e
      ∨ (∃ nD, p.healthDev = Except.ok nD ∧ p.healthQa = Except.error e)
      ∨ (∃ nD nQ, p.healthDev = Except.ok nD ∧ p.healthQa = Except.ok nQ
          ∧ ¬ maxPickups - st.totalPickups ≤ 0
          ∧ p.freshExists = true
          ∧ ¬ (projectExecution = "sequential" ∧ ¬ p.projectActive
                ∧ st.activeProjects ≥ 1)
          ∧ p.tick = Except.error e)) :
    ∃ st',
      heartbeatSweep maxPickups projectExecution st ((gid, p) :: rest) = (st', some e)
      ∧ st'.tickPassed = st.tickPassed
      ∧ (st'.healthPassed = st.healthPassed
         ∨ st'.healthPassed = st.healthPassed ++ [gid]) := by
  rcases h with hD | ⟨nD, hD, hQ⟩ | ⟨nD, nQ, hD, hQ, hbudget, hfresh, hguard, hT⟩
  · exact ⟨st, by simp [heartbeatSweep, hD], rfl, Or.inl rfl⟩
  · exact ⟨st, by simp [heartbeatSweep, hD, hQ], rfl, Or.inl rfl⟩
  · refine ⟨{ st with
        totalHealthFixes := st.totalHealthFixes + nD + nQ
        healthPassed := st.healthPassed ++ [gid] }, ?_, rfl, Or.inr rfl⟩
    simp [heartbeatSweep, hD, hQ, hfresh, hT, hbudget, hguard]
    intro h1 h2 h3
    exact absurd ⟨h1, by simp [h2], h3⟩ hguard

/-- Witness for the amended C4: a project whose health passes succeed but
whose tick pass throws aborts the concrete two-project sweep with the tick
error; the failed project keeps only its health-pass record and the second
project is never served. -/
theorem heartbeatSweep_pass_error_aborts_witness :
    (pTickErrC4.healthQa = Except.ok 0 ∧ pTickErrC4.tick = Except.error "tickboom")
    ∧ ∃ st',
      heartbeatSweep 4 "parallel" {} [("g1", pTickErrC4), ("g2", pOkC4)] =
        (st', some "tickboom")
      ∧ st'.tickPassed = ({} : SweepState).tickPassed
      ∧ (st'.healthPassed = ({} : SweepState).healthPassed
         ∨ st'.healthPassed = ({} : SweepState).healthPassed ++ ["g1"]) :=
  ⟨⟨rfl, rfl⟩,
    heartbeatSweep_pass_error_aborts 4 "parallel" {} "g1" pTickErrC4 [("g2", pOkC4)]
      "tickboom"
      (Or.inr (Or.inr ⟨0, 0, rfl, rfl, by decide, rfl, by decide, rfl⟩))⟩

/-! ### Claim theorems: completion pipeline -/

/-- The `deactivateWorker` on a present project succeeds and writes the worker
back with `active`, `issueId`, `startTime` cleared and the rest kept. -/
theorem deactivateWorker_found (data : ProjectsData) (g role : String)
    (proj : Project) (h : List.lookup g data.projects = some proj) :
    deactivateWorker data g role = Except.ok
      { data with projects := setKey g { proj with workers := setKey role (deactivatedWorker (getWorker proj role)) proj.workers } data.projects } := by
  simp only [deactivateWorker, deactivateWorkerT,
    updateWorkerT_found data g role _ proj h,
    Option.getD_some, Option.getD_none, getWorker, deactivatedWorker]

/-- C1 counterexample: completing `developer:done` while the task carries
`To Test` (the rule's `from` is `Doing`) throws, but the stored worker is
NOT unchanged: it is no longer active and its issueId is gone, because the
pipeline deactivates before attempting the label transition. -/
theorem executeCompletion_wrongLabel_cex :
    (executeCompletion DEFAULT_WORKFLOW "g" "developer" "done" 7 none none worldEx).2.2 =
      Except.error
        "Label transition failed: task has label \"To Test\" but expected \"Doing\""
    ∧ (workerIn (executeCompletion DEFAULT_WORKFLOW "g" "developer" "done" 7 none none
        worldEx).1.store "g" "developer").active = false
    ∧ (workerIn (executeCompletion DEFAULT_WORKFLOW "g" "developer" "done" 7 none none
        worldEx).1.store "g" "developer").issueId = none := by
  refine ⟨?_, ?_, ?_⟩ <;> rfl

/-- C1 amended: when the completion rule exists but the task's current
label differs from the rule's `from`, `executeCompletion` throws (the label
transition precondition fails), and the worker has by then already been
deactivated: afterwards it is inactive with no issueId, its `level` and
`sessions` untouched — not "unchanged, still active" as claimed. -/
theorem executeCompletion_wrongLabel_throws_and_deactivates
    (workflow : WorkflowConfig) (g role result : String) (issueId : Nat)
    (summary prUrl0 : Option String) (world : World) (rule : CompletionRule)
    (proj : Project)
    (hr : getCompletionRule workflow role result = some rule)
    (hp : getProject world.store g = some proj)
    (hl : world.taskLabel ≠ rule.from_) :
    ∃ e,
      (executeCompletion workflow g role result issueId summary prUrl0 world).2.2 =
        Except.error e
      ∧ workerIn
          (executeCompletion workflow g role result issueId summary prUrl0 world).1.store
          g role =
        { active := false
          issueId := none
          startTime := none
          level := (getWorker proj role).level
          sessions := (getWorker proj role).sessions } := by
  have hd := deactivateWorker_found world.store g role proj hp
  simp only [executeCompletion, hr, hd, if_neg hl]
  exact ⟨_, rfl, by
    rw [workerIn_setKey world.store g role proj _]
    simp [deactivatedWorker]⟩

/-- Witness for the amended C1: the concrete wrong-label completion on
`worldEx`. -/
theorem executeCompletion_wrongLabel_throws_and_deactivates_witness :
    getCompletionRule DEFAULT_WORKFLOW "developer" "done" =
      some { from_ := "Doing", to_ := "To Test", gitPull := true, detectPr := true }
    ∧ worldEx.taskLabel ≠ "Doing"
    ∧ ∃ e,
      (executeCompletion DEFAULT_WORKFLOW "g" "developer" "done" 7 none none worldEx).2.2 =
        Except.error e
      ∧ workerIn
          (executeCompletion DEFAULT_WORKFLOW "g" "developer" "done" 7 none none
            worldEx).1.store "g" "developer" =
        { active := false
          issueId := none
          startTime := none
          level := (getWorker projEx "developer").level
          sessions := (getWorker projEx "developer").sessions } :=
  ⟨by decide, by decide,
    executeCompletion_wrongLabel_throws_and_deactivates DEFAULT_WORKFLOW "g" "developer"
      "done" 7 none none worldEx
      { from_ := "Doing", to_ := "To Test", gitPull := true, detectPr := true }
      projEx (by decide) rfl (by decide)⟩

/-- C2: whenever the rule and the project exist, the pipeline's effect
trace places the state-store deactivation immediately before the attempted
label transition, and afterwards the stored worker is inactive — in
particular, if the label write fails the worker is already deactivated. -/
theorem executeCompletion_deactivate_before_label
    (workflow : WorkflowConfig) (g role result : String) (issueId : Nat)
    (summary prUrl0 : Option String) (world : World) (rule : CompletionRule)
    (proj : Project)
    (hr : getCompletionRule workflow role result = some rule)
    (hp : getProject world.store g = some proj) :
    (∃ pre post,
      (executeCompletion workflow g role result issueId summary prUrl0 world).2.1 =
        pre ++ [PipeEffect.deactivate g role,
                PipeEffect.labelTransition issueId rule.from_ rule.to_] ++ post)
    ∧ (workerIn
        (executeCompletion workflow g role result issueId summary prUrl0 world).1.store
        g role).active = false := by
  have hd := deactivateWorker_found world.store g role proj hp
  by_cases hL : world.taskLabel = rule.from_
  · simp only [executeCompletion, hr, hd, if_pos hL]
    refine ⟨⟨(if rule.gitPull = true then [PipeEffect.gitPull] else []) ++
        ((if rule.detectPr = true ∧ prUrl0 = none then [PipeEffect.detectPr issueId] else []) ++
          [PipeEffect.getIssue issueId, PipeEffect.notify]),
      (if rule.closeIssue = true then [PipeEffect.closeIssue issueId] else []) ++
        (if rule.reopenIssue = true then [PipeEffect.reopenIssue issueId] else []), by simp⟩, ?_⟩
    rw [workerIn_setKey world.store g role proj _]
    rfl
  · simp only [executeCompletion, hr, hd, if_neg hL]
    refine ⟨⟨(if rule.gitPull = true then [PipeEffect.gitPull] else []) ++
        ((if rule.detectPr = true ∧ prUrl0 = none then [PipeEffect.detectPr issueId] else []) ++
          [PipeEffect.getIssue issueId, PipeEffect.notify]), [], by simp⟩, ?_⟩
    rw [workerIn_setKey world.store g role proj _]
    rfl

/-- Witness for C2: the successful `developer:done` run on `worldExOk`
exhibits the deactivation directly before the label transition. -/
theorem executeCompletion_deactivate_before_label_witness :
    getCompletionRule DEFAULT_WORKFLOW "developer" "done" =
      some { from_ := "Doing", to_ := "To Test", gitPull := true, detectPr := true }
    ∧ ((∃ pre post,
        (executeCompletion DEFAULT_WORKFLOW "g" "developer" "done" 7 none none
          worldExOk).2.1 =
          pre ++ [PipeEffect.deactivate "g" "developer",
                  PipeEffect.labelTransition 7 "Doing" "To Test"] ++ post)
      ∧ (workerIn
          (executeCompletion DEFAULT_WORKFLOW "g" "developer" "done" 7 none none
            worldExOk).1.store "g" "developer").active = false) :=
  ⟨by decide,
    executeCompletion_deactivate_before_label DEFAULT_WORKFLOW "g" "developer" "done" 7
      none none worldExOk
      { from_ := "Doing", to_ := "To Test", gitPull := true, detectPr := true }
      projEx (by decide) rfl⟩

/-- C3: when the role's active state (as the code resolves it) has no
transition for the event derived from `result`, `completionRule` is `none`,
and `executeCompletion` throws the invalid-completion error having
performed zero effects: no store write, no label change, world untouched. -/
theorem completionRule_none_executeCompletion_noop
    (w : WorkflowConfig) (g role result : String) (issueId : Nat)
    (summary prUrl0 : Option String) (world : World)
    (lbl key : String) (st : StateConfig)
    (hA : getActiveLabel w role = Except.ok lbl)
    (hK : findStateKeyByLabel w lbl = some key)
    (hS : List.lookup key w.states = some st)
    (hT : ∀ tr, st.on_ = some tr → List.lookup (resultToEvent result) tr = none) :
    getCompletionRule w role result = none
    ∧ executeCompletion w g role result issueId summary prUrl0 world =
        (world, [], Except.error ("No completion rule for " ++ role ++ ":" ++ result)) := by
  have hrule : getCompletionRule w role result = none := by
    simp only [getCompletionRule, hA, hK, hS]
    cases hOn : st.on_ with
    | none => rfl
    | some tr => simp [hT tr hOn]
  exact ⟨hrule, by simp only [executeCompletion, hrule]⟩

/-- Witness for C3: `developer:pass` has no `PASS` transition from `Doing`
in the default workflow; the call throws with an empty effect trace. -/
theorem completionRule_none_executeCompletion_noop_witness :
    getCompletionRule DEFAULT_WORKFLOW "developer" "pass" = none
    ∧ executeCompletion DEFAULT_WORKFLOW "g" "developer" "pass" 7 none none worldEx =
        (worldEx, [], Except.error ("No completion rule for " ++ "developer" ++ ":" ++ "pass")) :=
  completionRule_none_executeCompletion_noop DEFAULT_WORKFLOW "g" "developer" "pass" 7
    none none worldEx "Doing" "doing" doingState rfl (by decide) (by decide)
    (by
      intro tr htr
      simp only [doingState, Option.some.injEq] at htr
      subst htr
      decide)

/-! ### Claim theorems: workflow-graph derivations -/

/-- Applying `find?` to a split list whose prefix all fails the predicate finds
the split point when it satisfies it. -/
theorem find?_first (p : α → Bool) (l1 : List α) (s : α) (l2 : List α)
    (hs : p s = true) (hfirst : ∀ t ∈ l1, p t = false) :
    List.find? p (l1 ++ s :: l2) = some s := by
  induction l1 with
  | nil => simp [List.find?_cons_of_pos, hs]
  | cons t ts ih =>
    rw [List.cons_append, List.find?_cons_of_neg _ (by simp [hfirst t (by simp)])]
    exact ih (fun u hu => hfirst u (List.mem_cons_of_mem _ hu))

/-- C5 counterexample: a workflow with two active states for role `dev`;
`activeLabel` does not fail with a ConfigError — it silently returns the
first one, `A1`. -/
theorem getActiveLabel_multiple_active_no_error_cex :
    (stateValues TWO_ACTIVE_WORKFLOW).countP (isActiveFor "dev") = 2
    ∧ getActiveLabel TWO_ACTIVE_WORKFLOW "dev" = Except.ok "A1" :=
  ⟨by decide, rfl⟩

/-- C5 amended: `activeLabel(role)` fails (with the ConfigError) when the
role has zero active states, and otherwise returns the label of the first
active state in declaration order — in particular the sole one when it is
unique, but with multiple active states it returns the first instead of
failing. -/
theorem getActiveLabel_first_active (w : WorkflowConfig) (role : String) :
    ((∀ s ∈ stateValues w, ¬ isActiveFor role s) →
      getActiveLabel w role =
        Except.error ("No active state for role \"" ++ role ++ "\""))
    ∧ (∀ l1 s l2, stateValues w = l1 ++ s :: l2 → isActiveFor role s →
        (∀ t ∈ l1, ¬ isActiveFor role t) →
        getActiveLabel w role = Except.ok s.label) := by
  constructor
  · intro h
    have hnone : (stateValues w).find? (isActiveFor role) = none :=
      List.find?_eq_none.mpr h
    simp [getActiveLabel, hnone]
  · intro l1 s l2 hsplit hs hfirst
    have hfind : (stateValues w).find? (isActiveFor role) = some s := by
      rw [hsplit]
      exact find?_first _ l1 s l2 hs
        (fun t ht => by simpa using hfirst t ht)
    simp [getActiveLabel, hfind]

/-- Witness for the amended C5: the default workflow has no active state
for an unknown role, so `activeLabel` fails there with the ConfigError. -/
theorem getActiveLabel_first_active_witness :
    getActiveLabel DEFAULT_WORKFLOW "manager" =
      Except.error ("No active state for role \"" ++ "manager" ++ "\"") :=
  (getActiveLabel_first_active DEFAULT_WORKFLOW "manager").1
    (List.find?_eq_none.mp (by decide))

/-- Inserting below a prefix the element sorts strictly above, and above a
suffix whose head it sorts at-or-above, lands exactly at the split point. -/
theorem jsInsert_append (le : α → α → Bool) (a : α) (l1 l2 : List α)
    (h1 : ∀ b ∈ l1, le a b = false)
    (h2 : ∀ b, l2.head? = some b → le a b = true) :
    jsInsert le a (l1 ++ l2) = l1 ++ a :: l2 := by
  induction l1 with
  | nil =>
    cases l2 with
    | nil => rfl
    | cons b t => simp [jsInsert, h2 b rfl]
  | cons c cs ih =>
    have hc : le a c = false := h1 c (by simp)
    have ih' := ih (fun b hb => h1 b (List.mem_cons_of_mem _ hb))
    simp [jsInsert, hc, ih']

/-- The JS stable insertion sort computes the same list as `mergeSort` for
any transitive total comparator: both are the stable sort. -/
theorem jsSort_eq_mergeSort (le : α → α → Bool)
    (htrans : ∀ a b c, le a b → le b c → le a c)
    (htotal : ∀ a b, le a b || le b a)
    (l : List α) : jsSort le l = l.mergeSort le := by
  induction l with
  | nil => simp [jsSort]
  | cons a l ih =>
    obtain ⟨l1, l2, h1, h2, h3⟩ := List.mergeSort_cons htrans htotal a l
    rw [jsSort, ih, h2, h1]
    apply jsInsert_append le a l1 l2
    · intro b hb
      simpa using h3 b hb
    · intro b hb
      have hs := List.sorted_mergeSort htrans htotal (a :: l)
      rw [h1] at hs
      have hcons := (List.pairwise_append.mp hs).2.1
      cases l2 with
      | nil => simp at hb
      | cons c t =>
        obtain rfl : c = b := by simpa using hb
        exact List.rel_of_pairwise_cons hcons (List.mem_cons_self _ _)

/-- C6: for every workflow and role (with at least one queue state for the
role, per the claim), `queueLabels` is the label projection of the stable
descending-priority sort of the role's queue states in declaration order:
it is a permutation of those states' labels, its priorities are
non-increasing, and for any priority `p` the states of priority `p` appear
as a sublist in declaration order (stability). -/
theorem getQueueLabels_sorted_desc_stable (w : WorkflowConfig) (role : String)
    (p : Int) (_hne : (stateValues w).filter (isQueueFor role) ≠ []) :
    getQueueLabels w role =
      (jsSort prioDescLE ((stateValues w).filter (isQueueFor role))).map (·.label)
    ∧ (jsSort prioDescLE ((stateValues w).filter (isQueueFor role))).Perm
        ((stateValues w).filter (isQueueFor role))
    ∧ (jsSort prioDescLE ((stateValues w).filter (isQueueFor role))).Pairwise
        (fun a b => prioOf b ≤ prioOf a)
    ∧ (((stateValues w).filter (isQueueFor role)).filter
          (fun s => prioOf s = p)).Sublist
        (jsSort prioDescLE ((stateValues w).filter (isQueueFor role))) := by
  have htrans : ∀ a b c : StateConfig, prioDescLE a b → prioDescLE b c → prioDescLE a c := by
    intro a b c hab hbc
    simp only [prioDescLE, decide_eq_true_eq] at *
    omega
  have htotal : ∀ a b : StateConfig, prioDescLE a b || prioDescLE b a := by
    intro a b
    simp only [prioDescLE, Bool.or_eq_true, decide_eq_true_eq]
    omega
  have hsort := jsSort_eq_mergeSort prioDescLE htrans htotal
    ((stateValues w).filter (isQueueFor role))
  refine ⟨rfl, ?_, ?_, ?_⟩
  · rw [hsort]
    exact List.mergeSort_perm _ _
  · rw [hsort]
    exact (List.sorted_mergeSort htrans htotal _).imp
      (fun h => by simpa [prioDescLE] using h)
  · rw [hsort]
    apply List.sublist_mergeSort htrans htotal
    · apply List.pairwise_of_forall_mem_list
      intro a ha b hb
      have hpa : prioOf a = p := by simpa using List.of_mem_filter ha
      have hpb : prioOf b = p := by simpa using List.of_mem_filter hb
      simp [prioDescLE, hpa, hpb]
    · exact List.filter_sublist _

/-- Witness for C6: the developer role of the default workflow, priority 1:
its queue labels come out `To Improve` (priority 3) before `To Do`
(priority 1), a permutation of the declared queue states, non-increasing,
with the priority-1 states in declaration order. -/
theorem getQueueLabels_sorted_desc_stable_witness :
    (stateValues DEFAULT_WORKFLOW).filter (isQueueFor "developer") ≠ []
    ∧ (getQueueLabels DEFAULT_WORKFLOW "developer" =
        (jsSort prioDescLE ((stateValues DEFAULT_WORKFLOW).filter
          (isQueueFor "developer"))).map (·.label)
      ∧ (jsSort prioDescLE ((stateValues DEFAULT_WORKFLOW).filter
          (isQueueFor "developer"))).Perm
          ((stateValues DEFAULT_WORKFLOW).filter (isQueueFor "developer"))
      ∧ (jsSort prioDescLE ((stateValues DEFAULT_WORKFLOW).filter
          (isQueueFor "developer"))).Pairwise
          (fun a b => prioOf b ≤ prioOf a)
      ∧ (((stateValues DEFAULT_WORKFLOW).filter (isQueueFor "developer")).filter
            (fun s => prioOf s = 1)).Sublist
          (jsSort prioDescLE ((stateValues DEFAULT_WORKFLOW).filter
            (isQueueFor "developer")))) :=
  ⟨by decide,
    getQueueLabels_sorted_desc_stable DEFAULT_WORKFLOW "developer" 1 (by decide)⟩

end DevClaw
